import Mathlib

/-!
Verification of the benchmark / cross-version baseline comparison core of the
`ditto-dql-cli` terminal (`src/index.ts`), as a shallow embedding in Lean.

Conventions used throughout this development:
  * Timing samples are natural numbers (the source measures `Date.now()`
    differences, which are integral milliseconds); derived statistics live
    in `ℚ` (JS floating point modelled by exact rationals).
  * Fallible engine calls are `Except` values; `undefined` is `Option.none`.
  * Each embedded definition names the source function it mirrors.
-/

namespace DqlBench

/-! ## VersionOrdering: `parseVersion` / `compareVersions` (index.ts 205-234) -/

/-- A parsed version, mirroring the record returned by `parseVersion`. -/
structure Version where
  major : Nat
  minor : Nat
  patch : Nat
  raw   : String
  deriving Repr, DecidableEq

/-- Digits of a decimal numeral to a natural number, as `parseInt` computes on
an all-digit capture group. -/
def digitsToNat (ds : List Char) : Nat :=
  ds.foldl (fun acc c => acc * 10 + (c.toNat - 48)) 0

/-- Matcher for the regex `^(\d+)\.(\d+)\.(\d+)`: three maximal nonempty digit
runs separated by literal dots, anchored at the start, remainder arbitrary.
Returns the three capture groups when the prefix matches. -/
def matchVersionPrefix (cs : List Char) : Option (List Char × List Char × List Char) :=
  let (d1, r1) := cs.span Char.isDigit
  if d1.isEmpty then none else
  match r1 with
  | '.' :: r2 =>
    let (d2, r3) := r2.span Char.isDigit
    if d2.isEmpty then none else
    match r3 with
    | '.' :: r4 =>
      let (d3, _) := r4.span Char.isDigit
      if d3.isEmpty then none else some (d1, d2, d3)
    | _ => none
  | _ => none

/-- Embeds `parseVersion` (index.ts 205-216): match `^(\d+)\.(\d+)\.(\d+)` against
the input; a non-matching string maps to `(0,0,0)` with the raw input kept. -/
def parseVersion (version : String) : Version :=
  match matchVersionPrefix version.data with
  | none => ⟨0, 0, 0, version⟩
  | some (d1, d2, d3) => ⟨digitsToNat d1, digitsToNat d2, digitsToNat d3, version⟩

/-- Embeds `compareVersions` (index.ts 218-225): descending comparison by the
(major, minor, patch) tuple, returning the JS numeric difference. -/
def compareVersions (a b : String) : Int :=
  let vA := parseVersion a
  let vB := parseVersion b
  if vA.major ≠ vB.major then (vB.major : Int) - vA.major
  else if vA.minor ≠ vB.minor then (vB.minor : Int) - vA.minor
  else (vB.patch : Int) - vA.patch

/-- Embeds `isVersionAtLeast` (index.ts 227-234). -/
def isVersionAtLeast (version : String) (minMajor minMinor : Nat) (minPatch : Nat := 0) : Bool :=
  let v := parseVersion version
  if v.major > minMajor then true
  else if v.major < minMajor then false
  else if v.minor > minMinor then true
  else if v.minor < minMinor then false
  else v.patch ≥ minPatch

end DqlBench

namespace DqlBench

/-- Helper: `compareVersions` negates when its arguments swap. -/
theorem compareVersions_swap (a b : String) :
    compareVersions a b = -compareVersions b a := by
  unfold compareVersions
  by_cases h1 : (parseVersion a).major = (parseVersion b).major <;>
    by_cases h2 : (parseVersion a).minor = (parseVersion b).minor <;>
      simp [h1, h2, Ne.symm, eq_comm] <;> omega

/-- Helper: a version compares equal to itself. -/
theorem compareVersions_self (v : String) : compareVersions v v = 0 := by
  simp [compareVersions]

/-- Helper: transitivity of the strict part of `compareVersions`. -/
theorem compareVersions_trans {a b c : String}
    (hab : compareVersions a b < 0) (hbc : compareVersions b c < 0) :
    compareVersions a c < 0 := by
  unfold compareVersions at *
  by_cases h1 : (parseVersion a).major = (parseVersion b).major <;>
    by_cases h2 : (parseVersion b).major = (parseVersion c).major <;>
      by_cases h3 : (parseVersion a).minor = (parseVersion b).minor <;>
        by_cases h4 : (parseVersion b).minor = (parseVersion c).minor <;>
          simp_all <;> omega

/-- The (major, minor, patch) key of a version string. -/
def versionKey (v : String) : Nat × Nat × Nat :=
  ((parseVersion v).major, (parseVersion v).minor, (parseVersion v).patch)

/-- Strict lexicographic order on (major, minor, patch) triples. -/
def tripleLt (x y : Nat × Nat × Nat) : Prop :=
  x.1 < y.1 ∨ (x.1 = y.1 ∧ (x.2.1 < y.2.1 ∨ (x.2.1 = y.2.1 ∧ x.2.2 < y.2.2)))

/-- Helper: `compareVersions a b` is negative exactly when `b`'s key is
lexicographically below `a`'s (the comparator sorts descending). -/
theorem compareVersions_lt_iff (a b : String) :
    compareVersions a b < 0 ↔ tripleLt (versionKey b) (versionKey a) := by
  unfold compareVersions tripleLt versionKey
  by_cases h1 : (parseVersion a).major = (parseVersion b).major <;>
    by_cases h2 : (parseVersion a).minor = (parseVersion b).minor <;>
      simp [h1, h2] <;> omega

/-- Helper: `compareVersions a b` is zero exactly when the keys agree. -/
theorem compareVersions_eq_zero_iff (a b : String) :
    compareVersions a b = 0 ↔ versionKey a = versionKey b := by
  unfold compareVersions versionKey
  by_cases h1 : (parseVersion a).major = (parseVersion b).major <;>
    by_cases h2 : (parseVersion a).minor = (parseVersion b).minor <;>
      simp [h1, h2, Prod.ext_iff] <;> omega

/-- C8: version parsing matches the prefix regex `^(\d+)\.(\d+)\.(\d+)`;
every non-matching input maps to (0,0,0) with the raw string retained; the
comparator orders descending by the (major, minor, patch) tuple and is a
strict weak ordering: sign-antisymmetric, transitive (both in its strict part
and in its incomparability relation), and zero on every diagonal pair. -/
theorem c8_version_ordering :
    (∀ s : String, matchVersionPrefix s.data = none → parseVersion s = ⟨0, 0, 0, s⟩) ∧
    (∀ s : String, (parseVersion s).raw = s) ∧
    (parseVersion "unknown" = ⟨0, 0, 0, "unknown"⟩) ∧
    (parseVersion "4.12.2" = ⟨4, 12, 2, "4.12.2"⟩) ∧
    (parseVersion "4.12.2-beta.1" = ⟨4, 12, 2, "4.12.2-beta.1"⟩) ∧
    (∀ a b : String, compareVersions a b = -compareVersions b a) ∧
    (∀ v : String, compareVersions v v = 0) ∧
    (∀ a b c : String,
       compareVersions a b < 0 → compareVersions b c < 0 → compareVersions a c < 0) ∧
    (∀ a b c : String,
       compareVersions a b = 0 → compareVersions b c = 0 → compareVersions a c = 0) ∧
    (∀ a b : String, compareVersions a b < 0 ↔ tripleLt (versionKey b) (versionKey a)) := by
  refine ⟨?_, ?_, by decide, by decide, by decide, compareVersions_swap, compareVersions_self,
    ?_, ?_, compareVersions_lt_iff⟩
  · intro s h; simp [parseVersion, h]
  · intro s
    unfold parseVersion
    cases matchVersionPrefix s.data with
    | none => rfl
    | some g => rcases g with ⟨d1, d2, d3⟩; rfl
  · intro a b c hab hbc; exact compareVersions_trans hab hbc
  · intro a b c hab hbc
    rw [compareVersions_eq_zero_iff] at *
    exact hab.trans hbc

/-- C8 witness: the theorem applied at concrete inputs, discharging the
hypotheses of its conditional conjuncts. -/
theorem c8_version_ordering_witness :
    (matchVersionPrefix "unknown".data = none ∧ parseVersion "unknown" = ⟨0, 0, 0, "unknown"⟩) ∧
    (compareVersions "4.12.2" "4.11.9" < 0 ∧ compareVersions "4.11.9" "4.10.7" < 0 ∧
      compareVersions "4.12.2" "4.10.7" < 0) :=
  ⟨⟨by decide, c8_version_ordering.1 "unknown" (by decide)⟩,
   ⟨by decide, by decide,
    (c8_version_ordering.2.2.2.2.2.2.2.1) "4.12.2" "4.11.9" "4.10.7" (by decide) (by decide)⟩⟩

/-! ## BaselineStore records and `getComparisonBaselines` (index.ts 161-270) -/

/-- A stored baseline record (`BenchmarkBaseline` in index.ts 167-185), with
the fields the comparison logic reads. -/
structure BenchmarkBaseline where
  query : String
  hash : String
  ditto_version : String
  mean : Rat
  deriving Repr, DecidableEq

/-- Codepoint-lexicographic comparison of character lists; `localeCompare`
coincides with this on version strings (ASCII digits and dots). -/
def charListLe : List Char → List Char → Bool
  | [], _ => true
  | _ :: _, [] => false
  | a :: as, b :: bs =>
    if a.toNat < b.toNat then true
    else if b.toNat < a.toNat then false
    else charListLe as bs

/-- String comparison used for the `localeCompare` sort of version strings. -/
def strLe (a b : String) : Bool := charListLe a.data b.data

/-- The sort relation of `getComparisonBaselines` (ascending by the
`localeCompare` of `_id.ditto_version`). -/
def baselineLe (a b : BenchmarkBaseline) : Prop :=
  strLe a.ditto_version b.ditto_version = true

instance : DecidableRel baselineLe := fun a b => by
  unfold baselineLe; infer_instance

theorem charListLe_total (xs ys : List Char) :
    charListLe xs ys = true ∨ charListLe ys xs = true := by
  induction xs generalizing ys with
  | nil => left; rfl
  | cons a as ih =>
    cases ys with
    | nil => right; rfl
    | cons b bs =>
      by_cases h1 : a.toNat < b.toNat
      · left; simp [charListLe, h1]
      · by_cases h2 : b.toNat < a.toNat
        · right; simp [charListLe, h2]
        · have := ih bs
          simpa [charListLe, h1, h2] using this

theorem charListLe_trans {xs ys zs : List Char}
    (h1 : charListLe xs ys = true) (h2 : charListLe ys zs = true) :
    charListLe xs zs = true := by
  induction xs generalizing ys zs with
  | nil => rfl
  | cons a as ih =>
    cases ys with
    | nil => simp [charListLe] at h1
    | cons b bs =>
      cases zs with
      | nil => simp [charListLe] at h2
      | cons c cs =>
        simp only [charListLe] at h1 h2 ⊢
        by_cases hab : a.toNat < b.toNat <;> by_cases hbc : b.toNat < c.toNat <;>
          by_cases hba : b.toNat < a.toNat <;> by_cases hcb : c.toNat < b.toNat <;>
            simp_all <;> first
              | omega
              | (have hac : a.toNat < c.toNat := by omega
                 simp [hac])
              | (have hac : ¬ a.toNat < c.toNat := by omega
                 have hca : ¬ c.toNat < a.toNat := by omega
                 simp [hac, hca]
                 first
                   | exact ih h1 h2
                   | exact ⟨by omega, ih h1 h2⟩)

instance : IsTotal BenchmarkBaseline baselineLe :=
  ⟨fun a b => charListLe_total a.ditto_version.data b.ditto_version.data⟩

instance : IsTrans BenchmarkBaseline baselineLe :=
  ⟨fun _ _ _ h1 h2 => charListLe_trans h1 h2⟩

/-- Embeds `getComparisonBaselines` (index.ts 252-270): from all stored records with
this fingerprint, drop the current version's record and sort the rest
ascending by the `localeCompare` of the version string. (The store lookup by
hash is the caller's concern; the records list stands for its result.) -/
def getComparisonBaselines (records : List BenchmarkBaseline) (currentVersion : String) :
    List BenchmarkBaseline :=
  List.insertionSort baselineLe
    (records.filter (fun r => r.ditto_version ≠ currentVersion))

/-- The record list of the spec's worked `ComparisonSelector` example. -/
def exampleBaselines : List BenchmarkBaseline :=
  [⟨"q", "h", "4.12.2", 10⟩, ⟨"q", "h", "4.12.1", 11⟩, ⟨"q", "h", "4.12.0", 12⟩,
   ⟨"q", "h", "4.11.9", 13⟩, ⟨"q", "h", "4.11.5", 14⟩, ⟨"q", "h", "4.10.7", 15⟩]

/-- C1 counterexample: on the claim's own worked example (stored versions
4.12.2 (current), 4.12.1, 4.12.0, 4.11.9, 4.11.5, 4.10.7) the code returns
all five non-current records in ascending alphabetical order — not the
claimed two patch-tagged plus two minor-tagged records. -/
theorem c1_comparison_selection_counterexample :
    (getComparisonBaselines exampleBaselines "4.12.2").map
        (fun r => r.ditto_version) =
      ["4.10.7", "4.11.5", "4.11.9", "4.12.0", "4.12.1"] ∧
    (["4.10.7", "4.11.5", "4.11.9", "4.12.0", "4.12.1"] : List String) ≠
      ["4.12.1", "4.12.0", "4.11.9", "4.10.7"] := by
  constructor
  · decide
  · decide

/-- C1 (amended): for every record list and current version, the
comparison-baseline selection returns exactly the stored records whose
version differs from the current version — all of them, with no cap, no
patch/minor bucketing and no tagging — sorted ascending by the string
comparison of the version; on the worked example this yields the five
records 4.10.7, 4.11.5, 4.11.9, 4.12.0, 4.12.1. -/
theorem c1_comparison_selection (records : List BenchmarkBaseline)
    (currentVersion : String) :
    (getComparisonBaselines records currentVersion).Perm
        (records.filter (fun r => r.ditto_version ≠ currentVersion)) ∧
    List.Sorted baselineLe (getComparisonBaselines records currentVersion) ∧
    (getComparisonBaselines exampleBaselines "4.12.2").map
        (fun r => r.ditto_version) =
      ["4.10.7", "4.11.5", "4.11.9", "4.12.0", "4.12.1"] := by
  exact ⟨List.perm_insertionSort _ _, List.sorted_insertionSort _ _, by decide⟩

/-! ## StatSummarizer and BenchmarkRunner: `benchmarkQuery` (index.ts 822-964)

Timing samples are integral milliseconds (`Date.now()` differences), so the
raw samples are naturals; derived statistics are exact rationals standing for
the JS floats. `Math.floor(n * 0.95)` is modelled as `n * 95 / 100` in
natural division. -/

/-- The digest object returned by `benchmarkQuery` (index.ts 961-963 and the
sentinel at 850-852). -/
structure BenchDigest where
  mean : Rat
  median : Rat
  min : Rat
  max : Rat
  stdDev : Real
  p95 : Rat
  p99 : Rat
  resultCount : Rat
  times : List Nat

/-- Embeds `times.sort((a, b) => a - b)`: ascending sort of the samples. -/
def sortTimes (times : List Nat) : List Nat :=
  List.insertionSort (· ≤ ·) times

/-- Population variance of the sorted samples about their mean
(index.ts 869). -/
def timesVariance (times : List Nat) : Rat :=
  let s := sortTimes times
  let mean : Rat := (s.sum : Rat) / s.length
  ((s.map fun t => ((t : Rat) - mean) ^ 2).sum) / s.length

/-- Embeds `mean = sum / times.length` on the sorted samples (index.ts 858-859). -/
def statMean (times : List Nat) : Rat :=
  ((sortTimes times).sum : Rat) / (sortTimes times).length

/-- Median: midpoint average of the two middle elements for even n, the
middle element for odd n (index.ts 860-862). -/
def statMedian (times : List Nat) : Rat :=
  let s := sortTimes times
  let n := s.length
  if n % 2 = 0 then (((s.getD (n / 2 - 1) 0 : Nat) : Rat) + (s.getD (n / 2) 0 : Nat)) / 2
  else ((s.getD (n / 2) 0 : Nat) : Rat)

/-- Embeds `times[0]` of the sorted samples (index.ts 863). -/
def statMin (times : List Nat) : Rat :=
  ((sortTimes times).getD 0 0 : Nat)

/-- Embeds `times[times.length - 1]` of the sorted samples (index.ts 864). -/
def statMax (times : List Nat) : Rat :=
  ((sortTimes times).getD ((sortTimes times).length - 1) 0 : Nat)

/-- Embeds `times[Math.floor(times.length * 0.95)]` (index.ts 865). -/
def statP95 (times : List Nat) : Rat :=
  ((sortTimes times).getD ((sortTimes times).length * 95 / 100) 0 : Nat)

/-- Embeds `times[Math.floor(times.length * 0.99)]` (index.ts 866). -/
def statP99 (times : List Nat) : Rat :=
  ((sortTimes times).getD ((sortTimes times).length * 99 / 100) 0 : Nat)

/-- The statistics block of `benchmarkQuery` (index.ts 856-870): sort
ascending; mean = sum/n; median = midpoint average for even n, middle element
for odd n; p95/p99 at index `floor(n * 0.95)` / `floor(n * 0.99)`;
stdDev = sqrt of the population variance (divisor n). -/
noncomputable def benchStats (times : List Nat) (resultCount : Nat) : BenchDigest :=
  { mean := statMean times
    median := statMedian times
    min := statMin times
    max := statMax times
    stdDev := Real.sqrt (timesVariance times)
    p95 := statP95 times
    p99 := statP99 times
    resultCount := resultCount
    times := times }

/-- The "-1 sentinel" digest returned when a timed repetition throws
(index.ts 850-852). -/
def sentinelDigest : BenchDigest :=
  { mean := -1, median := -1, min := -1, max := -1, stdDev := -1
    p95 := -1, p99 := -1, resultCount := -1, times := [] }

/-- The engine's behaviour over the repetitions of one benchmark: repetition
index to either a failure or (elapsed ms, row count). -/
def Engine : Type := Nat → Except Unit (Nat × Nat)

/-- The timed loop of `benchmarkQuery` (index.ts 833-854): run repetitions in
order; the first failure aborts the remaining repetitions and yields `none`
(the sentinel path); otherwise collect the elapsed times. -/
def collectTimes (engine : Engine) : Nat → Nat → Option (List Nat)
  | 0, _ => some []
  | Nat.succ k, i =>
    match engine i with
    | .error _ => none
    | .ok (t, _) => (collectTimes engine k (i + 1)).map fun ts => t :: ts

/-- The `resultCount` field is taken from the first run (index.ts 839), starting at 0. -/
def firstResultCount (engine : Engine) : Nat :=
  match engine 0 with
  | .ok (_, rc) => rc
  | .error _ => 0

/-- Embeds `benchmarkQuery` (index.ts 822-964): the sentinel digest when any
repetition throws, the statistics digest otherwise. Total — no exception
escapes the timed loop. -/
noncomputable def benchmarkQueryRun (count : Nat) (engine : Engine) : BenchDigest :=
  match collectTimes engine count 0 with
  | none => sentinelDigest
  | some ts => benchStats ts (firstResultCount engine)

/-- The `mean !== -1` guard applied before saving a baseline (index.ts 1704),
before comparing against baselines (index.ts 889) and before collecting
summary data (index.ts 1310, 1341). -/
def meanSupported (d : BenchDigest) : Bool :=
  decide (d.mean ≠ -1)

/-- The `.benchmark_all` loop (index.ts 1291-1409): each benchmark is run
independently, a per-benchmark catch keeps the batch going. -/
noncomputable def benchmarkAllRun (engines : List Engine) (count : Nat) : List BenchDigest :=
  engines.map (benchmarkQueryRun count)

/-- Helper: an error at any repetition below `count` makes the timed loop
abort with `none`. -/
theorem collectTimes_eq_none (engine : Engine) :
    ∀ count start, (∃ j, j < count ∧ engine (start + j) = .error ()) →
      collectTimes engine count start = none := by
  intro count
  induction count with
  | zero => intro start h; exact absurd h (by simp)
  | succ k ih =>
    intro start h
    obtain ⟨j, hj, he⟩ := h
    cases hcase : engine start with
    | error e => simp [collectTimes, hcase]
    | ok v =>
      have hj0 : j ≠ 0 := by
        intro h0
        rw [h0] at he; simp at he
        rw [he] at hcase; cases hcase
      obtain ⟨j', rfl⟩ := Nat.exists_eq_succ_of_ne_zero hj0
      have : collectTimes engine k (start + 1) = none := by
        apply ih
        exact ⟨j', by omega, by rw [show start + 1 + j' = start + (j' + 1) by omega]; exact he⟩
      simp [collectTimes, hcase, this]

/-- C5: if any timed repetition throws, the runner aborts the remaining
repetitions of that benchmark and returns the sentinel digest with every
statistic equal to -1 (and no raw samples), without raising; the sentinel
fails the `mean !== -1` guard used before saving and before comparison; and
the surrounding `.benchmark_all` batch still runs every other benchmark,
each producing exactly the digest it would produce alone. -/
theorem c5_failure_sentinel (count : Nat) (engine : Engine) (i : Nat)
    (hi : i < count) (he : engine i = .error ()) :
    benchmarkQueryRun count engine = sentinelDigest ∧
    (sentinelDigest.mean = -1 ∧ sentinelDigest.median = -1 ∧
     sentinelDigest.min = -1 ∧ sentinelDigest.max = -1 ∧
     sentinelDigest.stdDev = -1 ∧ sentinelDigest.p95 = -1 ∧
     sentinelDigest.p99 = -1 ∧ sentinelDigest.resultCount = -1 ∧
     sentinelDigest.times = []) ∧
    meanSupported sentinelDigest = false ∧
    (∀ pre post : List Engine,
      benchmarkAllRun (pre ++ engine :: post) count =
        benchmarkAllRun pre count ++ sentinelDigest :: benchmarkAllRun post count) := by
  have habort : collectTimes engine count 0 = none :=
    collectTimes_eq_none engine count 0 ⟨i, hi, by simpa using he⟩
  have hrun : benchmarkQueryRun count engine = sentinelDigest := by
    simp [benchmarkQueryRun, habort]
  refine ⟨hrun, ⟨rfl, rfl, rfl, rfl, rfl, rfl, rfl, rfl, rfl⟩,
    by simp [meanSupported, sentinelDigest], ?_⟩
  intro pre post
  simp [benchmarkAllRun, hrun]

/-- An engine whose every repetition throws. -/
def failEngine : Engine := fun _ => .error ()

/-- C5 witness: the theorem applied at `count = 1` with an engine that always
throws. -/
theorem c5_failure_sentinel_witness :
    (0 < 1 ∧ failEngine 0 = .error ()) ∧
    (benchmarkQueryRun 1 failEngine = sentinelDigest ∧
     (sentinelDigest.mean = -1 ∧ sentinelDigest.median = -1 ∧
      sentinelDigest.min = -1 ∧ sentinelDigest.max = -1 ∧
      sentinelDigest.stdDev = -1 ∧ sentinelDigest.p95 = -1 ∧
      sentinelDigest.p99 = -1 ∧ sentinelDigest.resultCount = -1 ∧
      sentinelDigest.times = []) ∧
     meanSupported sentinelDigest = false ∧
     (∀ pre post : List Engine,
       benchmarkAllRun (pre ++ failEngine :: post) 1 =
         benchmarkAllRun pre 1 ++ sentinelDigest :: benchmarkAllRun post 1)) :=
  ⟨⟨Nat.zero_lt_one, rfl⟩, c5_failure_sentinel 1 failEngine 0 Nat.zero_lt_one rfl⟩

/-! ### Order facts about the sorted sample list, used for C6 -/

theorem sortTimes_sorted (l : List Nat) : List.Sorted (· ≤ ·) (sortTimes l) :=
  List.sorted_insertionSort _ _

theorem sortTimes_perm (l : List Nat) : (sortTimes l).Perm l :=
  List.perm_insertionSort _ _

theorem sortTimes_length (l : List Nat) : (sortTimes l).length = l.length :=
  (sortTimes_perm l).length_eq

theorem getD_mem_of_lt {l : List Nat} {i : Nat} (h : i < l.length) :
    l.getD i 0 ∈ l := by
  induction l generalizing i with
  | nil => simp at h
  | cons a as ih =>
    cases i with
    | zero => simp
    | succ j =>
      simp only [List.getD_cons_succ]
      exact List.mem_cons_of_mem _ (ih (by simpa using h))

theorem sorted_first_le {s : List Nat} (hs : List.Sorted (· ≤ ·) s) {x : Nat}
    (hx : x ∈ s) : s.getD 0 0 ≤ x := by
  cases s with
  | nil => cases hx
  | cons a as =>
    rcases List.mem_cons.mp hx with rfl | h
    · simp
    · simpa using List.rel_of_sorted_cons hs x h

theorem sorted_le_last {s : List Nat} (hs : List.Sorted (· ≤ ·) s) :
    ∀ x ∈ s, x ≤ s.getD (s.length - 1) 0 := by
  induction s with
  | nil => intro x hx; cases hx
  | cons a as ih =>
    intro x hx
    cases as with
    | nil =>
      simp at hx
      simp [hx]
    | cons b bs =>
      have hs2 : List.Sorted (· ≤ ·) (b :: bs) := hs.of_cons
      have hidx : (a :: b :: bs).getD ((a :: b :: bs).length - 1) 0 =
          (b :: bs).getD ((b :: bs).length - 1) 0 := by
        simp [List.getD_cons_succ]
      rw [hidx]
      rcases List.mem_cons.mp hx with rfl | h
      · have hab : x ≤ b := List.rel_of_sorted_cons hs b (by simp)
        exact le_trans hab (ih hs2 b (by simp))
      · exact ih hs2 x h

theorem length_mul_le_sum {l : List Nat} {m : Nat} (h : ∀ x ∈ l, m ≤ x) :
    l.length * m ≤ l.sum := by
  induction l with
  | nil => simp
  | cons a as ih =>
    have ha := h a (by simp)
    have := ih fun x hx => h x (List.mem_cons_of_mem _ hx)
    simp only [List.length_cons, List.sum_cons]
    calc (as.length + 1) * m = as.length * m + m := by ring
      _ ≤ as.sum + a := by omega
      _ = a + as.sum := by omega

theorem sum_le_length_mul {l : List Nat} {m : Nat} (h : ∀ x ∈ l, x ≤ m) :
    l.sum ≤ l.length * m := by
  induction l with
  | nil => simp
  | cons a as ih =>
    have ha := h a (by simp)
    have := ih fun x hx => h x (List.mem_cons_of_mem _ hx)
    simp only [List.length_cons, List.sum_cons]
    calc a + as.sum ≤ m + as.length * m := by omega
      _ = (as.length + 1) * m := by ring

/-- Helper: every sorted-position element sits between the digest's min and
max. -/
theorem statMin_le_getD_le_statMax (times : List Nat) (h : times ≠ [])
    {i : Nat} (hi : i < (sortTimes times).length) :
    statMin times ≤ ((sortTimes times).getD i 0 : Nat) ∧
      (((sortTimes times).getD i 0 : Nat) : Rat) ≤ statMax times := by
  have hsorted := sortTimes_sorted times
  have hmem := getD_mem_of_lt hi
  constructor
  · unfold statMin
    exact_mod_cast sorted_first_le hsorted hmem
  · unfold statMax
    exact_mod_cast sorted_le_last hsorted _ hmem

/-- C6: the statistics digest of a non-empty sample list has mean, median,
p95 and p99 between min and max, a non-negative stdDev, the p95/p99 indices
never exceed n-1 (so the claimed clamp is vacuous), and for a single sample
all location statistics equal that sample while stdDev is 0. -/
theorem c6_stat_summarizer (times : List Nat) (rc : Nat) (h : times ≠ []) :
    ((benchStats times rc).min ≤ (benchStats times rc).mean ∧
      (benchStats times rc).mean ≤ (benchStats times rc).max) ∧
    ((benchStats times rc).min ≤ (benchStats times rc).median ∧
      (benchStats times rc).median ≤ (benchStats times rc).max) ∧
    ((benchStats times rc).min ≤ (benchStats times rc).p95 ∧
      (benchStats times rc).p95 ≤ (benchStats times rc).max) ∧
    ((benchStats times rc).min ≤ (benchStats times rc).p99 ∧
      (benchStats times rc).p99 ≤ (benchStats times rc).max) ∧
    0 ≤ (benchStats times rc).stdDev ∧
    (times.length * 95 / 100 ≤ times.length - 1 ∧
      times.length * 99 / 100 ≤ times.length - 1) ∧
    (∀ t : Nat, times = [t] →
      (benchStats times rc).mean = t ∧ (benchStats times rc).median = t ∧
      (benchStats times rc).min = t ∧ (benchStats times rc).max = t ∧
      (benchStats times rc).stdDev = 0) := by
  have hlenpos : 0 < times.length := List.length_pos.mpr h
  have hsne : sortTimes times ≠ [] := by
    intro hnil
    have hperm := sortTimes_perm times
    rw [hnil] at hperm
    exact h hperm.symm.eq_nil
  have hn : 0 < (sortTimes times).length := List.length_pos.mpr hsne
  have hsorted := sortTimes_sorted times
  have hnq : (0 : Rat) < ((sortTimes times).length : Rat) := by exact_mod_cast hn
  refine ⟨?_, ?_, ?_, ?_, ?_, ⟨by omega, by omega⟩, ?_⟩
  · -- min ≤ mean ≤ max
    have hminall : ∀ x ∈ sortTimes times, (sortTimes times).getD 0 0 ≤ x :=
      fun x hx => sorted_first_le hsorted hx
    have hmaxall := sorted_le_last hsorted
    have h1 := length_mul_le_sum hminall
    have h2 := sum_le_length_mul hmaxall
    constructor
    · show statMin times ≤ statMean times
      unfold statMin statMean
      rw [le_div_iff hnq]
      exact_mod_cast by
        calc (sortTimes times).getD 0 0 * (sortTimes times).length
            = (sortTimes times).length * (sortTimes times).getD 0 0 := Nat.mul_comm _ _
          _ ≤ (sortTimes times).sum := h1
    · show statMean times ≤ statMax times
      unfold statMean statMax
      rw [div_le_iff hnq]
      exact_mod_cast by
        calc (sortTimes times).sum
            ≤ (sortTimes times).length *
                (sortTimes times).getD ((sortTimes times).length - 1) 0 := h2
          _ = (sortTimes times).getD ((sortTimes times).length - 1) 0 *
                (sortTimes times).length := Nat.mul_comm _ _
  · -- min ≤ median ≤ max
    show statMin times ≤ statMedian times ∧ statMedian times ≤ statMax times
    unfold statMedian
    simp only
    by_cases hpar : (sortTimes times).length % 2 = 0
    · have hge2 : 2 ≤ (sortTimes times).length := by omega
      have hi1 : (sortTimes times).length / 2 - 1 < (sortTimes times).length := by omega
      have hi2 : (sortTimes times).length / 2 < (sortTimes times).length := by omega
      obtain ⟨hb1, hb2⟩ := statMin_le_getD_le_statMax times h hi1
      obtain ⟨hb3, hb4⟩ := statMin_le_getD_le_statMax times h hi2
      rw [if_pos hpar]
      constructor
      · rw [le_div_iff (by norm_num : (0 : Rat) < 2)]
        linarith
      · rw [div_le_iff (by norm_num : (0 : Rat) < 2)]
        linarith
    · have hi2 : (sortTimes times).length / 2 < (sortTimes times).length := by omega
      obtain ⟨hb3, hb4⟩ := statMin_le_getD_le_statMax times h hi2
      rw [if_neg hpar]
      exact ⟨hb3, hb4⟩
  · -- min ≤ p95 ≤ max
    have hi : (sortTimes times).length * 95 / 100 < (sortTimes times).length := by omega
    exact statMin_le_getD_le_statMax times h hi
  · -- min ≤ p99 ≤ max
    have hi : (sortTimes times).length * 99 / 100 < (sortTimes times).length := by omega
    exact statMin_le_getD_le_statMax times h hi
  · exact Real.sqrt_nonneg _
  · -- singleton sample
    intro t ht
    subst ht
    have hsingle : sortTimes [t] = [t] := rfl
    refine ⟨?_, ?_, ?_, ?_, ?_⟩
    · show statMean [t] = t
      simp [statMean, hsingle]
    · show statMedian [t] = t
      simp [statMedian, hsingle]
    · show statMin [t] = t
      simp [statMin, hsingle]
    · show statMax [t] = t
      simp [statMax, hsingle]
    · show Real.sqrt (timesVariance [t]) = 0
      have hv : timesVariance [t] = 0 := by
        simp [timesVariance, hsingle]
      rw [hv]
      simp [Real.sqrt_zero]

/-- C6 witness: the theorem applied at the concrete sample list [3, 5, 4]. -/
theorem c6_stat_summarizer_witness :
    (([3, 5, 4] : List Nat) ≠ []) ∧
    (((benchStats [3, 5, 4] 1).min ≤ (benchStats [3, 5, 4] 1).mean ∧
      (benchStats [3, 5, 4] 1).mean ≤ (benchStats [3, 5, 4] 1).max) ∧
    ((benchStats [3, 5, 4] 1).min ≤ (benchStats [3, 5, 4] 1).median ∧
      (benchStats [3, 5, 4] 1).median ≤ (benchStats [3, 5, 4] 1).max) ∧
    ((benchStats [3, 5, 4] 1).min ≤ (benchStats [3, 5, 4] 1).p95 ∧
      (benchStats [3, 5, 4] 1).p95 ≤ (benchStats [3, 5, 4] 1).max) ∧
    ((benchStats [3, 5, 4] 1).min ≤ (benchStats [3, 5, 4] 1).p99 ∧
      (benchStats [3, 5, 4] 1).p99 ≤ (benchStats [3, 5, 4] 1).max) ∧
    0 ≤ (benchStats [3, 5, 4] 1).stdDev ∧
    (([3, 5, 4] : List Nat).length * 95 / 100 ≤ ([3, 5, 4] : List Nat).length - 1 ∧
      ([3, 5, 4] : List Nat).length * 99 / 100 ≤ ([3, 5, 4] : List Nat).length - 1) ∧
    (∀ t : Nat, ([3, 5, 4] : List Nat) = [t] →
      (benchStats [3, 5, 4] 1).mean = t ∧ (benchStats [3, 5, 4] 1).median = t ∧
      (benchStats [3, 5, 4] 1).min = t ∧ (benchStats [3, 5, 4] 1).max = t ∧
      (benchStats [3, 5, 4] 1).stdDev = 0)) :=
  ⟨by decide, c6_stat_summarizer [3, 5, 4] 1 (by decide)⟩

/-! ## BenchmarkIdentity: `generateBenchmarkHash` (index.ts 187-190)

The source computes `crypto.createHash('sha256')` over the UTF-8 bytes of the
`'|'`-joined pre-queries and query, hex-encodes, and keeps the first 16 hex
characters. SHA-256 (FIPS 180-4) is embedded below over naturals, with the
round constants derived — as the standard defines them — from the fractional
parts of the square and cube roots of the first primes, via exact integer
root extraction. -/

/-- Bisection step for integer roots: maintains `lo^e ≤ x < hi^e`. -/
def rootBisect (e x : Nat) : Nat → Nat → Nat → Nat
  | 0, lo, _ => lo
  | Nat.succ fuel, lo, hi =>
    if hi ≤ lo + 1 then lo
    else
      let mid := (lo + hi) / 2
      if mid ^ e ≤ x then rootBisect e x fuel mid hi
      else rootBisect e x fuel lo mid

/-- Integer square root: the largest `m` with `m^2 ≤ x` (for `x < 2^120`). -/
def intSqrt (x : Nat) : Nat := rootBisect 2 x 64 0 (2 ^ 61)

/-- Integer cube root: the largest `m` with `m^3 ≤ x` (for `x < 2^120`). -/
def intCbrt (x : Nat) : Nat := rootBisect 3 x 64 0 (2 ^ 41)

/-- The first 64 primes, whose roots seed the SHA-256 constants. -/
def sha256Primes : List Nat :=
  [2, 3, 5, 7, 11, 13, 17, 19, 23, 29, 31, 37, 41, 43, 47, 53,
   59, 61, 67, 71, 73, 79, 83, 89, 97, 101, 103, 107, 109, 113, 127, 131,
   137, 139, 149, 151, 157, 163, 167, 173, 179, 181, 191, 193, 197, 199, 211, 223,
   227, 229, 233, 239, 241, 251, 257, 263, 269, 271, 277, 281, 283, 293, 307, 311]

/-- SHA-256 round constants: first 32 bits of the fractional parts of the
cube roots of the first 64 primes. -/
def sha256K : List Nat :=
  sha256Primes.map fun p => intCbrt (p * 2 ^ 96) % 2 ^ 32

/-- SHA-256 initial hash words: first 32 bits of the fractional parts of the
square roots of the first 8 primes. -/
def sha256H0 : List Nat :=
  (sha256Primes.take 8).map fun p => intSqrt (p * 2 ^ 64) % 2 ^ 32

/-- 32-bit right rotation. -/
def rotr32 (x n : Nat) : Nat :=
  ((x >>> n) ||| (x <<< (32 - n))) % 2 ^ 32

/-- 32-bit complement. -/
def not32 (x : Nat) : Nat := 4294967295 - x

/-- The eight working words of the SHA-256 compression loop. -/
structure Sha8 where
  a : Nat
  b : Nat
  c : Nat
  d : Nat
  e : Nat
  f : Nat
  g : Nat
  h : Nat

/-- One round of the SHA-256 compression function on a (round constant,
schedule word) pair. -/
def sha256Round (st : Sha8) (kw : Nat × Nat) : Sha8 :=
  let s1 := rotr32 st.e 6 ^^^ rotr32 st.e 11 ^^^ rotr32 st.e 25
  let ch := (st.e &&& st.f) ^^^ (not32 st.e &&& st.g)
  let temp1 := (st.h + s1 + ch + kw.1 + kw.2) % 2 ^ 32
  let s0 := rotr32 st.a 2 ^^^ rotr32 st.a 13 ^^^ rotr32 st.a 22
  let maj := (st.a &&& st.b) ^^^ (st.a &&& st.c) ^^^ (st.b &&& st.c)
  let temp2 := (s0 + maj) % 2 ^ 32
  ⟨(temp1 + temp2) % 2 ^ 32, st.a, st.b, st.c, (st.d + temp1) % 2 ^ 32, st.e, st.f, st.g⟩

/-- Message-schedule extension: `acc` holds the schedule words produced so
far, most recent first; each step prepends
`σ1(w[i-2]) + w[i-7] + σ0(w[i-15]) + w[i-16] mod 2^32`. -/
def sha256Extend : Nat → List Nat → List Nat
  | 0, acc => acc
  | Nat.succ fuel, acc =>
    let s0w := rotr32 (acc.getD 14 0) 7 ^^^ rotr32 (acc.getD 14 0) 18 ^^^ (acc.getD 14 0 >>> 3)
    let s1w := rotr32 (acc.getD 1 0) 17 ^^^ rotr32 (acc.getD 1 0) 19 ^^^ (acc.getD 1 0 >>> 10)
    sha256Extend fuel (((acc.getD 15 0 + s0w + acc.getD 6 0 + s1w) % 2 ^ 32) :: acc)

/-- The 64-word message schedule of one 16-word block. -/
def sha256Schedule (block : List Nat) : List Nat :=
  (sha256Extend 48 block.reverse).reverse

/-- Compress one 16-word block into the running hash words. -/
def sha256Block (hw : List Nat) (block : List Nat) : List Nat :=
  let st0 : Sha8 := ⟨hw.getD 0 0, hw.getD 1 0, hw.getD 2 0, hw.getD 3 0,
                     hw.getD 4 0, hw.getD 5 0, hw.getD 6 0, hw.getD 7 0⟩
  let st := (sha256K.zip (sha256Schedule block)).foldl sha256Round st0
  [(hw.getD 0 0 + st.a) % 2 ^ 32, (hw.getD 1 0 + st.b) % 2 ^ 32,
   (hw.getD 2 0 + st.c) % 2 ^ 32, (hw.getD 3 0 + st.d) % 2 ^ 32,
   (hw.getD 4 0 + st.e) % 2 ^ 32, (hw.getD 5 0 + st.f) % 2 ^ 32,
   (hw.getD 6 0 + st.g) % 2 ^ 32, (hw.getD 7 0 + st.h) % 2 ^ 32]

/-- Group padded bytes into big-endian 32-bit words. -/
def bytesToWords : List Nat → List Nat
  | b0 :: b1 :: b2 :: b3 :: rest =>
    (b0 * 2 ^ 24 + b1 * 2 ^ 16 + b2 * 2 ^ 8 + b3) :: bytesToWords rest
  | _ => []

/-- Group words into 16-word blocks. -/
def wordsToBlocks : List Nat → List (List Nat)
  | w0 :: w1 :: w2 :: w3 :: w4 :: w5 :: w6 :: w7 ::
    w8 :: w9 :: w10 :: w11 :: w12 :: w13 :: w14 :: w15 :: rest =>
    [w0, w1, w2, w3, w4, w5, w6, w7, w8, w9, w10, w11, w12, w13, w14, w15] ::
      wordsToBlocks rest
  | _ => []

/-- SHA-256 padding: append 0x80, zeros to 56 mod 64, and the 8-byte
big-endian bit length. -/
def sha256Pad (msg : List Nat) : List Nat :=
  let bitLen := msg.length * 8
  msg ++ [128] ++ List.replicate ((55 + 64 - msg.length % 64) % 64) 0 ++
    [56, 48, 40, 32, 24, 16, 8, 0].map fun sh => (bitLen >>> sh) % 256

/-- The SHA-256 digest of a byte list, as eight 32-bit words. -/
def sha256Words (msg : List Nat) : List Nat :=
  (wordsToBlocks (bytesToWords (sha256Pad msg))).foldl sha256Block sha256H0

/-- UTF-8 encoding of one character. -/
def utf8Char (c : Char) : List Nat :=
  let n := c.toNat
  if n < 128 then [n]
  else if n < 2048 then [192 ||| (n >>> 6), 128 ||| (n &&& 63)]
  else if n < 65536 then
    [224 ||| (n >>> 12), 128 ||| ((n >>> 6) &&& 63), 128 ||| (n &&& 63)]
  else
    [240 ||| (n >>> 18), 128 ||| ((n >>> 12) &&& 63),
     128 ||| ((n >>> 6) &&& 63), 128 ||| (n &&& 63)]

/-- UTF-8 bytes of a string (`hash.update(s)` hashes the UTF-8 encoding). -/
def utf8Bytes (s : String) : List Nat :=
  (s.data.map utf8Char).join

/-- Lowercase hex digit. -/
def hexDigit (d : Nat) : Char :=
  Char.ofNat (if d < 10 then 48 + d else 87 + d)

/-- Fixed-width lowercase hex of a word, most significant digit first. -/
def hexChars : Nat → Nat → List Char
  | 0, _ => []
  | Nat.succ fuel, w => hexChars fuel (w / 16) ++ [hexDigit (w % 16)]

/-- The 64 lowercase hex characters of a string's SHA-256 digest
(`digest('hex')`). -/
def sha256HexChars (s : String) : List Char :=
  ((sha256Words (utf8Bytes s)).map (hexChars 8)).join

/-- Embeds `generateBenchmarkHash` (index.ts 187-190):
`sha256(join(preQueries ++ [query], "|"))` hex digest truncated by
`substring(0, 16)`. -/
def generateBenchmarkHash (preQueries : List String) (query : String) : String :=
  String.mk ((sha256HexChars (String.intercalate "|" (preQueries ++ [query]))).take 16)

/-- Helper: fixed-width hex rendering has exactly the requested width. -/
theorem hexChars_length (fuel : Nat) : ∀ w, (hexChars fuel w).length = fuel := by
  induction fuel with
  | zero => intro w; rfl
  | succ f ih => intro w; simp [hexChars, ih]

/-- Helper: compressing a block preserves the eight-word hash state. -/
theorem sha256Block_length (hw block : List Nat) : (sha256Block hw block).length = 8 := by
  simp [sha256Block]

/-- Helper: folding block compression from an eight-word state stays an
eight-word state. -/
theorem foldl_sha256Block_length (blocks : List (List Nat)) :
    ∀ hw : List Nat, hw.length = 8 → (blocks.foldl sha256Block hw).length = 8 := by
  induction blocks with
  | nil => intro hw h0; exact h0
  | cons b bs ih => intro hw h0; exact ih _ (sha256Block_length hw b)

/-- Helper: the digest always consists of eight words. -/
theorem sha256Words_length (msg : List Nat) : (sha256Words msg).length = 8 :=
  foldl_sha256Block_length _ sha256H0 (by decide)

/-- Helper: summing a constant 8 over a list. -/
theorem sum_map_const_eight (l : List Nat) : (l.map fun _ => (8 : Nat)).sum = 8 * l.length := by
  induction l with
  | nil => rfl
  | cons a as ih => simp [ih]; ring

/-- Helper: the full hex digest is 64 characters long. -/
theorem sha256HexChars_length (s : String) : (sha256HexChars s).length = 64 := by
  unfold sha256HexChars
  rw [List.length_join]
  have hmap : (sha256Words (utf8Bytes s)).map (fun w => (hexChars 8 w).length) =
      (sha256Words (utf8Bytes s)).map fun _ => 8 := by
    apply List.map_congr_left
    intro w _
    exact hexChars_length 8 w
  rw [List.map_map]
  show ((sha256Words (utf8Bytes s)).map fun w => (hexChars 8 w).length).sum = 64
  rw [hmap, sum_map_const_eight, sha256Words_length]

set_option maxRecDepth 100000 in
/-- C7: the benchmark fingerprint is the SHA-256 hex digest of the
`'|'`-joined concatenation `preQueries ++ [query]`, truncated to exactly 16
hex characters; it is a deterministic pure function of its inputs; and on
distinct sample pairs — changing the query, or changing the pre-queries —
the fingerprints differ. -/
theorem c7_fingerprint :
    (∀ pre q, generateBenchmarkHash pre q =
        String.mk ((sha256HexChars (String.intercalate "|" (pre ++ [q]))).take 16)) ∧
    (∀ pre q, (generateBenchmarkHash pre q).length = 16) ∧
    (∀ pre q, generateBenchmarkHash pre q = generateBenchmarkHash pre q) ∧
    generateBenchmarkHash [] "SELECT * FROM movies LIMIT 10" ≠
      generateBenchmarkHash [] "SELECT title FROM movies WHERE year > 2020" ∧
    generateBenchmarkHash ["CREATE INDEX idx_year ON movies (year)"]
        "SELECT * FROM movies LIMIT 10" ≠
      generateBenchmarkHash [] "SELECT * FROM movies LIMIT 10" ∧
    generateBenchmarkHash [] "SELECT title FROM movies WHERE year > 2020" ≠
      generateBenchmarkHash ["CREATE INDEX idx_year ON movies (year)"]
        "SELECT * FROM movies LIMIT 10" := by
  refine ⟨fun pre q => rfl, ?_, fun pre q => rfl, by decide, by decide, by decide⟩
  intro pre q
  show (String.mk _).length = 16
  have hmk : ∀ l : List Char, (String.mk l).length = l.length := fun l => rfl
  rw [hmk, List.length_take, sha256HexChars_length]
  decide

/-! ## SignificanceClassifier: the three comparison views

The significance rule appears three times in the source: inline in
`benchmarkQuery`'s `formatDiff` (index.ts 899-931), in `.benchmark_all`'s
`formatDiffCell` (index.ts 1446-1492), and in `.benchmark_show`'s
`formatDiffCell` (index.ts 1872-1917). Each is embedded separately, exactly
as written. Formatted strings are modelled structurally: which classification
(colour) is chosen, which number is printed, and whether it is printed as a
millisecond delta or as a percentage. -/

/-- The 4-way significance classification (colour): blue / green / yellow /
red in the source. -/
inductive SignifClass where
  | noChange
  | improvement
  | smallRegression
  | largeRegression
  deriving Repr, DecidableEq

/-- Whether a delta is rendered in milliseconds or as a percentage. -/
inductive DeltaKind where
  | ms
  | percent
  deriving Repr, DecidableEq

/-- The information content of the coloured string `formatDiff` returns. -/
structure DiffText where
  classif : SignifClass
  shownKind : DeltaKind
  shownValue : Rat
  deriving Repr, DecidableEq

/-- Embeds `formatDiff` inside `benchmarkQuery` (index.ts 899-931): called as
`formatDiff(mean, baseline.metrics.mean)` — current value first. The colour
uses the absolute difference when the baseline is below 10 ms and the
percentage difference otherwise, but the returned string is always
`` `${sign}${percentDiff.toFixed(1)}%` `` — a percentage. -/
def formatDiff (current baseline : Rat) : DiffText :=
  let percentDiff := (current - baseline) / baseline * 100
  let absoluteDiff := current - baseline
  let color :=
    if baseline < 10 then
      if |absoluteDiff| < 1 then SignifClass.noChange
      else if absoluteDiff < 0 then SignifClass.improvement
      else if absoluteDiff < 2 then SignifClass.smallRegression
      else SignifClass.largeRegression
    else
      if |percentDiff| < 5 then SignifClass.noChange
      else if percentDiff < 0 then SignifClass.improvement
      else if percentDiff < 15 then SignifClass.smallRegression
      else SignifClass.largeRegression
  ⟨color, DeltaKind.percent, percentDiff⟩

/-- A multi-version table cell: `'-'`, `'N/A'`, or a coloured value plus
delta. -/
inductive TableCell where
  | dash
  | na
  | entry (classif : SignifClass) (shown : Rat) (kind : DeltaKind) (delta : Rat)
  deriving Repr, DecidableEq

/-- Embeds the `.benchmark_all` `formatDiffCell` (index.ts 1446-1492): called as
`formatDiffCell(value, currentValue)` — the historical (display) value first,
the current run second. Mode selection and colour use the display value's
magnitude; the printed delta is absolute for fast baselines and a percentage
otherwise. -/
def allFormatDiffCell (displayValue comparisonValue : Option Rat) : TableCell :=
  match displayValue, comparisonValue with
  | Option.none, _ => TableCell.dash
  | _, Option.none => TableCell.dash
  | some d, some c =>
    if d = -1 ∨ c = -1 then TableCell.na
    else
      let percentDiff := (c - d) / d * 100
      let absoluteDiff := c - d
      let color :=
        if d < 10 then
          if |absoluteDiff| < 1 then SignifClass.noChange
          else if absoluteDiff < 0 then SignifClass.improvement
          else if absoluteDiff < 2 then SignifClass.smallRegression
          else SignifClass.largeRegression
        else
          if |percentDiff| < 5 then SignifClass.noChange
          else if percentDiff < 0 then SignifClass.improvement
          else if percentDiff < 15 then SignifClass.smallRegression
          else SignifClass.largeRegression
      if d < 10 then TableCell.entry color d DeltaKind.ms absoluteDiff
      else TableCell.entry color d DeltaKind.percent percentDiff

/-- Embeds the `.benchmark_show` `formatDiffCell` (index.ts 1872-1917): called as
`formatDiffCell(currentValue, value)` — current first. After computing
`percentDiff` and `absoluteDiff` from its own parameters, its colour
selection reads a variable named `displayValue`, which is not bound anywhere
in the `.benchmark_show` handler (the parameter of that name belongs to the
other `formatDiffCell`, a `const` scoped to the `.benchmark_all` branch), so
JavaScript throws a `ReferenceError` whenever both timings are present. -/
def showFormatDiffCell (current baseline : Option Rat) : Except String TableCell :=
  match current, baseline with
  | Option.none, _ => Except.ok TableCell.dash
  | _, Option.none => Except.ok TableCell.dash
  | some cu, some ba =>
    let _percentDiff := (cu - ba) / ba * 100
    let _absoluteDiff := cu - ba
    Except.error "ReferenceError: displayValue is not defined"

/-- The significance rule as the spec words it (section 4.6): mode selected
by the baseline (display) magnitude, 4-way bucketing on the absolute or
percentage difference. Used to compare the three code sites against one
reference classification. -/
def specClassify (displayValue currentValue : Rat) : SignifClass :=
  if displayValue < 10 then
    let diff := currentValue - displayValue
    if |diff| < 1 then SignifClass.noChange
    else if diff < 0 then SignifClass.improvement
    else if diff < 2 then SignifClass.smallRegression
    else SignifClass.largeRegression
  else
    let pct := (currentValue - displayValue) / displayValue * 100
    if |pct| < 5 then SignifClass.noChange
    else if pct < 0 then SignifClass.improvement
    else if pct < 15 then SignifClass.smallRegression
    else SignifClass.largeRegression

/-- The classification carried by a table cell, when it has one. -/
def cellClassif : TableCell → Option SignifClass
  | TableCell.entry cl _ _ _ => some cl
  | _ => Option.none

/-- C2: the three comparison views do not apply the significance rule
identically. The single-query view and the `.benchmark_all` cells classify
every pair by the spec rule (shown here in general and at the pair
baseline 5 ms / current 7 ms: large regression), but the `.benchmark_show`
cell reads the out-of-scope variable `displayValue` and therefore throws a
ReferenceError instead of classifying, for every pair of present timings. -/
theorem c2_three_view_consistency_bug :
    (formatDiff 7 5).classif = SignifClass.largeRegression ∧
    allFormatDiffCell (some 5) (some 7) =
      TableCell.entry SignifClass.largeRegression 5 DeltaKind.ms 2 ∧
    showFormatDiffCell (some 7) (some 5) =
      Except.error "ReferenceError: displayValue is not defined" ∧
    (∀ d c : Rat, (formatDiff c d).classif = specClassify d c) ∧
    (∀ d c : Rat,
      cellClassif (allFormatDiffCell (some d) (some c)) = some (specClassify d c) ∨
        allFormatDiffCell (some d) (some c) = TableCell.na) ∧
    (∀ d c : Rat, ∀ t : TableCell, showFormatDiffCell (some c) (some d) ≠ Except.ok t) := by
  refine ⟨by norm_num [formatDiff], by norm_num [allFormatDiffCell], rfl, fun d c => rfl, ?_, ?_⟩
  · intro d c
    by_cases hna : d = -1 ∨ c = -1
    · right
      simp [allFormatDiffCell, hna]
    · left
      simp only [allFormatDiffCell, if_neg hna]
      by_cases hd : d < 10 <;> simp [hd, cellClassif, specClassify]
  · intro d c t
    simp [showFormatDiffCell]

/-- C3 counterexample: at baseline 5 ms, current 7 ms the single-query view
is in absolute mode (baseline below 10), yet the string it formats is the
percentage `+40.0%`, not the millisecond delta — so "the formatted output
shows the delta in ms in absolute mode" fails for `formatDiff`. -/
theorem c3_significance_rule_counterexample :
    (5 : Rat) < 10 ∧
    (formatDiff 7 5).shownKind = DeltaKind.percent ∧
    DeltaKind.percent ≠ DeltaKind.ms ∧
    (formatDiff 7 5).shownValue = 40 ∧
    (formatDiff 7 5).classif = SignifClass.largeRegression := by
  refine ⟨by norm_num, rfl, by decide, by norm_num [formatDiff], by norm_num [formatDiff]⟩

/-- C3 (amended): both classifier sites bucket exactly as claimed — absolute
difference with thresholds 1/0/2 when the baseline is below 10 ms, percentage
difference with thresholds 5/0/15 otherwise — and in particular
(baseline 5, current 7) is a large regression and (baseline 100, current 94)
an improvement; the `.benchmark_all` cell prints the delta in ms in absolute
mode and as a percentage otherwise, but the single-query `formatDiff` always
prints the delta as a percentage, even in absolute mode. -/
theorem c3_significance_rule (d c : Rat) (hd : d ≠ -1) (hc : c ≠ -1) :
    (formatDiff c d).classif = specClassify d c ∧
    (formatDiff c d).shownKind = DeltaKind.percent ∧
    allFormatDiffCell (some d) (some c) =
      TableCell.entry (specClassify d c) d
        (if d < 10 then DeltaKind.ms else DeltaKind.percent)
        (if d < 10 then c - d else (c - d) / d * 100) ∧
    specClassify 5 7 = SignifClass.largeRegression ∧
    specClassify 100 94 = SignifClass.improvement := by
  refine ⟨rfl, rfl, ?_, by norm_num [specClassify], by norm_num [specClassify]⟩
  have hna : ¬ (d = -1 ∨ c = -1) := by tauto
  simp only [allFormatDiffCell, if_neg hna]
  by_cases hlt : d < 10 <;> simp [hlt, specClassify]

/-- C3 witness: the theorem applied at baseline 5, current 7. -/
theorem c3_significance_rule_witness :
    ((5 : Rat) ≠ -1 ∧ (7 : Rat) ≠ -1) ∧
    ((formatDiff 7 5).classif = specClassify 5 7 ∧
     (formatDiff 7 5).shownKind = DeltaKind.percent ∧
     allFormatDiffCell (some 5) (some 7) =
       TableCell.entry (specClassify 5 7) 5
         (if (5 : Rat) < 10 then DeltaKind.ms else DeltaKind.percent)
         (if (5 : Rat) < 10 then 7 - 5 else (7 - 5) / 5 * 100) ∧
     specClassify 5 7 = SignifClass.largeRegression ∧
     specClassify 100 94 = SignifClass.improvement) :=
  ⟨⟨by norm_num, by norm_num⟩, c3_significance_rule 5 7 (by norm_num) (by norm_num)⟩

/-! ## BaselineOrchestrator: the overwrite-policy state machine
(`.benchmark_baseline` handler, index.ts 1630-1689) -/

/-- The three overwrite-policy states (`let overwritePolicy: 'ask' | 'all' |
'none' = 'ask'`, index.ts 1630). -/
inductive OverwritePolicy where
  | ask
  | all
  | none
  deriving Repr, DecidableEq

/-- ASCII lowercasing of one character, as `toLowerCase` acts on the ASCII
answers the prompt expects. -/
def lowerChar (c : Char) : Char :=
  if 65 ≤ c.toNat ∧ c.toNat ≤ 90 then Char.ofNat (c.toNat + 32) else c

/-- JS `trim` whitespace test (space, tab, newline, carriage return). -/
def isWs (c : Char) : Bool :=
  c.toNat = 32 ∨ c.toNat = 9 ∨ c.toNat = 10 ∨ c.toNat = 13

/-- Embeds `answer.toLowerCase().trim()` (index.ts 1659). -/
def jsNormalizeAnswer (s : String) : String :=
  String.mk ((((s.data.map lowerChar).dropWhile isWs).reverse.dropWhile isWs).reverse)

/-- One conflict event (index.ts 1650-1689): returns (overwrite this
baseline?, next policy, was the user prompted?). In the `ask` state the
handler prompts and lowercases/trims the answer: `a`/`all` switch to the
sticky `all`, `n`/`none` to the sticky `none`, `y`/`yes` overwrite once,
anything else skips once; in `all`/`none` no prompt is issued. -/
def applyOverwrite (policy : OverwritePolicy) (answer : String) :
    Bool × OverwritePolicy × Bool :=
  match policy with
  | OverwritePolicy.ask =>
    let a := jsNormalizeAnswer answer
    if a = "a" ∨ a = "all" then (true, OverwritePolicy.all, true)
    else if a = "n" ∨ a = "none" then (false, OverwritePolicy.none, true)
    else if a = "y" ∨ a = "yes" then (true, OverwritePolicy.ask, true)
    else (false, OverwritePolicy.ask, true)
  | OverwritePolicy.all => (true, OverwritePolicy.all, false)
  | OverwritePolicy.none => (false, OverwritePolicy.none, false)

/-- Thread the policy through a sequence of conflicts; each list entry is the
answer the user would give if prompted at that conflict. Returns per conflict
(overwritten?, prompted?). -/
def runConflicts : OverwritePolicy → List String → List (Bool × Bool)
  | _, [] => []
  | p, ans :: rest =>
    let r := applyOverwrite p ans
    (r.1, r.2.2) :: runConflicts r.2.1 rest

/-- A baseline-creation invocation starts every batch in `ask`
(index.ts 1630 runs on each invocation of the handler). -/
def runBaselineConflicts (answers : List String) : List (Bool × Bool) :=
  runConflicts OverwritePolicy.ask answers

/-- Helper: in the sticky `all` state every conflict is overwritten and no
prompt is ever issued again. -/
theorem runConflicts_all (answers : List String) :
    runConflicts OverwritePolicy.all answers = answers.map fun _ => (true, false) := by
  induction answers with
  | nil => rfl
  | cons a rest ih => simp [runConflicts, applyOverwrite, ih]

/-- Helper: in the sticky `none` state every conflict is skipped and no
prompt is ever issued again. -/
theorem runConflicts_none (answers : List String) :
    runConflicts OverwritePolicy.none answers = answers.map fun _ => (false, false) := by
  induction answers with
  | nil => rfl
  | cons a rest ih => simp [runConflicts, applyOverwrite, ih]

/-- C4: the overwrite-policy state machine starts in `ask` on every
invocation; answering `all` at a conflict overwrites it and every later
conflict of the batch without prompting; answering `none` skips it and every
later conflict without prompting; `yes`/`no` decide only that one conflict
and leave the state at `ask`, so the next conflict prompts again; and in the
`ask` state every conflict prompts. -/
theorem c4_overwrite_policy :
    (runBaselineConflicts [] = []) ∧
    (applyOverwrite OverwritePolicy.ask "all" = (true, OverwritePolicy.all, true)) ∧
    (applyOverwrite OverwritePolicy.ask "none" = (false, OverwritePolicy.none, true)) ∧
    (applyOverwrite OverwritePolicy.ask "yes" = (true, OverwritePolicy.ask, true)) ∧
    (applyOverwrite OverwritePolicy.ask "no" = (false, OverwritePolicy.ask, true)) ∧
    (∀ ans, applyOverwrite OverwritePolicy.all ans = (true, OverwritePolicy.all, false)) ∧
    (∀ ans, applyOverwrite OverwritePolicy.none ans = (false, OverwritePolicy.none, false)) ∧
    (∀ rest, runBaselineConflicts ("all" :: rest) =
      (true, true) :: rest.map fun _ => (true, false)) ∧
    (∀ rest, runBaselineConflicts ("none" :: rest) =
      (false, true) :: rest.map fun _ => (false, false)) ∧
    (∀ rest, runBaselineConflicts ("no" :: "yes" :: rest) =
      (false, true) :: (true, true) :: runConflicts OverwritePolicy.ask rest) ∧
    (∀ ans rest, runConflicts OverwritePolicy.ask (ans :: rest) =
      ((applyOverwrite OverwritePolicy.ask ans).1, true) ::
        runConflicts (applyOverwrite OverwritePolicy.ask ans).2.1 rest) := by
  refine ⟨rfl, by decide, by decide, by decide, by decide,
    fun ans => rfl, fun ans => rfl, ?_, ?_, ?_, ?_⟩
  · intro rest
    have h1 : applyOverwrite OverwritePolicy.ask "all" =
        (true, OverwritePolicy.all, true) := by decide
    simp [runBaselineConflicts, runConflicts, h1, runConflicts_all]
  · intro rest
    have h1 : applyOverwrite OverwritePolicy.ask "none" =
        (false, OverwritePolicy.none, true) := by decide
    simp [runBaselineConflicts, runConflicts, h1, runConflicts_none]
  · intro rest
    have h1 : applyOverwrite OverwritePolicy.ask "no" =
        (false, OverwritePolicy.ask, true) := by decide
    have h2 : applyOverwrite OverwritePolicy.ask "yes" =
        (true, OverwritePolicy.ask, true) := by decide
    simp [runBaselineConflicts, runConflicts, h1, h2]
  · intro ans rest
    cases hstep : applyOverwrite OverwritePolicy.ask ans with
    | mk d pr =>
      have hprompt : pr.2 = true := by
        simp only [applyOverwrite] at hstep
        repeat' split at hstep
        all_goals (cases hstep; rfl)
      simp [runConflicts, hstep, hprompt]

/-! ## CLI run-count parsing (handlers at index.ts 1200-1214, 1259-1267,
1581-1597, 1951-1968) -/

/-- Embeds `parseInt` on a decimal argument: skip leading whitespace, an optional
sign, then the maximal digit prefix; no digits means NaN (`Option.none`).
(The hex `0x` autodetection of full `parseInt` is irrelevant to these
handlers and not modelled.) -/
def jsParseInt (s : String) : Option Int :=
  let cs := s.data.dropWhile isWs
  match cs with
  | c :: rest =>
    if c.toNat = 45 then
      (parseDigitPrefix rest).map fun n => -(n : Int)
    else if c.toNat = 43 then
      (parseDigitPrefix rest).map fun n => (n : Int)
    else
      (parseDigitPrefix cs).map fun n => (n : Int)
  | [] => Option.none
where
  /-- The maximal leading digit run, as a number; `none` when empty. -/
  parseDigitPrefix (cs : List Char) : Option Nat :=
    let ds := cs.takeWhile Char.isDigit
    if ds.isEmpty then Option.none else some (digitsToNat ds)

/-- The `.benchmark <name|index> [runs]` handler's run count
(index.ts 1200-1214): `args[2] ? parseInt(args[2]) : 5`, rejected
(`Option.none`) when NaN or below 1. An empty `args[2]` is falsy in JS, so
it also falls back to the default 5. -/
def benchmarkRunCount (args : List String) : Option Int :=
  let rc : Option Int :=
    match args.get? 2 with
    | Option.none => some 5
    | some s => if s = "" then some 5 else jsParseInt s
  match rc with
  | Option.none => Option.none
  | some k => if k < 1 then Option.none else some k

/-- The `.benchmark_all [runs]` handler's run count (index.ts 1259-1267):
`args[1] ? parseInt(args[1]) : 5`, same validation. -/
def benchmarkAllRunCount (args : List String) : Option Int :=
  let rc : Option Int :=
    match args.get? 1 with
    | Option.none => some 5
    | some s => if s = "" then some 5 else jsParseInt s
  match rc with
  | Option.none => Option.none
  | some k => if k < 1 then Option.none else some k

/-- The second-argument run count of `.benchmark_baseline <name> [runs]`
(index.ts 1591-1597): kept at 50 unless `args[2]` is truthy and parses to a
number above 0. -/
def baselineSecondCount (args : List String) : Int :=
  match args.get? 2 with
  | Option.none => 50
  | some s2 =>
    if s2 = "" then 50
    else
      match jsParseInt s2 with
      | some k => if k > 0 then k else 50
      | Option.none => 50

/-- The `.benchmark_baseline` argument parse (index.ts 1581-1629): a numeric
first argument is the run count for all benchmarks; otherwise the first
argument (when truthy) names one benchmark and the second may override the
default run count of 50. Returns (requested benchmark, run count), with
`Option.none` meaning "all benchmarks". -/
def benchmarkBaselineParse (args : List String) : Option String × Int :=
  match args.get? 1 with
  | Option.none => (Option.none, 50)
  | some s =>
    if s = "" then (Option.none, baselineSecondCount args)
    else
      match jsParseInt s with
      | some k => (Option.none, k)
      | Option.none => (some s, baselineSecondCount args)

/-- The double-quote character. -/
def dq : Char := Char.ofNat 34

/-- The single-quote character. -/
def sq : Char := Char.ofNat 39

/-- The quote stripping of `.bench` (index.ts 1963-1966): a query wrapped in
matching quotes loses its first and last characters. -/
def stripQuotes (q : String) : String :=
  let cs := q.data
  if (cs.head? = some dq ∧ cs.getLast? = some dq) ∨
      (cs.head? = some sq ∧ cs.getLast? = some sq) then
    String.mk ((cs.drop 1).dropLast)
  else q

/-- Split a character list at spaces, keeping empty fields, as
`input.split(' ')` does. -/
def splitOnSpace : List Char → List Char → List (List Char)
  | [], acc => [acc.reverse]
  | c :: rest, acc =>
    if c.toNat = 32 then acc.reverse :: splitOnSpace rest []
    else splitOnSpace rest (c :: acc)

/-- Join character lists with single spaces (the inverse of splitting, used
to recover `input.substring(indexOf(' ') + 1)`). -/
def joinWithSpace : List (List Char) → List Char
  | [] => []
  | [l] => l
  | l :: ls => l ++ Char.ofNat 32 :: joinWithSpace ls

/-- JS `trim` on a character list. -/
def charTrim (cs : List Char) : List Char :=
  ((cs.dropWhile isWs).reverse.dropWhile isWs).reverse

/-- The `.bench <query>` handler (index.ts 1951-1968): without a space there
is no query and the handler prints usage; otherwise everything after the
first space — trimmed, quotes stripped — is the query, and the run count is
the constant 20 (`benchmarkQuery(query, 20, [], false)`); no argument can
change it. -/
def benchParse (input : String) : Option (String × Nat) :=
  match splitOnSpace input.data [] with
  | [] => Option.none
  | [_] => Option.none
  | _ :: rest =>
    let q := String.mk (charTrim (joinWithSpace rest))
    some (stripQuotes q, 20)

/-- C9 counterexample: `.bench SELECT 1 7` runs 20 repetitions — the
trailing `7` is part of the query text, not a run-count override, so the
ad-hoc default is not overridable by a positional integer argument. -/
theorem c9_run_counts_counterexample :
    benchParse ".bench SELECT 1 7" = some ("SELECT 1 7", 20) ∧ (20 : Nat) ≠ 7 := by
  constructor
  · decide
  · decide

/-- C9 (amended): the default repetition counts are 20 for `.bench`, 5 for
`.benchmark` and `.benchmark_all`, and 50 for `.benchmark_baseline`; the
latter three defaults are overridable by a positional integer argument, but
`.bench` always runs 20 — its whole remainder is the query. -/
theorem c9_run_counts :
    (benchParse ".bench SELECT * FROM movies" = some ("SELECT * FROM movies", 20)) ∧
    (∀ input q n, benchParse input = some (q, n) → n = 20) ∧
    (benchmarkRunCount [".benchmark", "name"] = some 5) ∧
    (benchmarkRunCount [".benchmark", "name", "12"] = some 12) ∧
    (benchmarkAllRunCount [".benchmark_all"] = some 5) ∧
    (benchmarkAllRunCount [".benchmark_all", "9"] = some 9) ∧
    (benchmarkBaselineParse [".benchmark_baseline"] = (Option.none, 50)) ∧
    (benchmarkBaselineParse [".benchmark_baseline", "75"] = (Option.none, 75)) ∧
    (benchmarkBaselineParse [".benchmark_baseline", "name"] = (some "name", 50)) ∧
    (benchmarkBaselineParse [".benchmark_baseline", "name", "75"] = (some "name", 75)) := by
  refine ⟨by decide, ?_, by decide, by decide, by decide, by decide,
    by decide, by decide, by decide, by decide⟩
  intro input q n h
  unfold benchParse at h
  split at h
  · cases h
  · cases h
  · simp only [Option.some.injEq, Prod.mk.injEq] at h
    exact h.2.symm

/-- C9 witness: the universally quantified conjunct applied at a concrete
input. -/
theorem c9_run_counts_witness :
    (benchParse ".bench SELECT title FROM movies" =
      some ("SELECT title FROM movies", 20)) ∧ (20 : Nat) = 20 :=
  ⟨by decide,
   c9_run_counts.2.1 ".bench SELECT title FROM movies" "SELECT title FROM movies" 20
     (by decide)⟩

/-! ## `saveBaseline` and the baseline-creation success report
(index.ts 272-281 and 1700-1790) -/

/-- Embeds `saveBaseline` (index.ts 272-281): the upsert is wrapped in
try/catch — a store failure is logged (`console.error`) and swallowed, so
the function always returns normally. Its input is the outcome of the
underlying store upsert; its output is the log lines it emits. -/
def saveBaseline (upsert : Except String Unit) : List String :=
  match upsert with
  | Except.ok _ => []
  | Except.error e => ["Failed to save baseline: " ++ e]

/-- What the baseline-creation loop reports for one benchmark. -/
structure BaselineStepReport where
  reportedSaved : Bool
  skippedIncrement : Nat
  logs : List String
  deriving Repr, DecidableEq

/-- One save step of the `.benchmark_baseline` loop (index.ts 1700-1735):
when the measurement is supported (`mean !== -1`) the handler awaits
`saveBaseline` and prints `✓ Baseline saved` unconditionally; only a thrown
exception would reach the catch that increments `skippedBaselines`
(index.ts 1750-1753), and `saveBaseline` never throws. -/
noncomputable def baselineSaveStep (digest : BenchDigest) (upsert : Except String Unit) :
    BaselineStepReport :=
  if meanSupported digest then
    { reportedSaved := true, skippedIncrement := 0, logs := saveBaseline upsert }
  else
    { reportedSaved := false, skippedIncrement := 0, logs := [] }

/-- C10: `saveBaseline` never propagates a store failure — an upsert error
only produces a log line — so for every benchmark whose measurement
succeeded the workflow reports the baseline as saved and does not count it
as skipped, even when the underlying upsert failed; `successfulBaselines =
total - skipped` therefore counts it as successful. -/
theorem c10_save_baseline_swallows_errors (digest : BenchDigest)
    (upsert : Except String Unit) (h : meanSupported digest = true) :
    (∀ e, saveBaseline (Except.error e) = ["Failed to save baseline: " ++ e]) ∧
    (baselineSaveStep digest upsert).reportedSaved = true ∧
    (baselineSaveStep digest upsert).skippedIncrement = 0 ∧
    (∀ e, (baselineSaveStep digest (Except.error e)).reportedSaved = true ∧
      (baselineSaveStep digest (Except.error e)).skippedIncrement = 0) := by
  refine ⟨fun e => rfl, ?_, ?_, fun e => ⟨?_, ?_⟩⟩ <;>
    simp [baselineSaveStep, h]

/-- A successfully measured digest for exercising the save step. -/
noncomputable def witnessDigest : BenchDigest :=
  { mean := 5, median := 5, min := 5, max := 5, stdDev := 0
    p95 := 5, p99 := 5, resultCount := 1, times := [5] }

/-- C10 witness: the theorem applied to a successful measurement and a
failing upsert. -/
theorem c10_save_baseline_swallows_errors_witness :
    (meanSupported witnessDigest = true) ∧
    ((∀ e, saveBaseline (Except.error e) = ["Failed to save baseline: " ++ e]) ∧
     (baselineSaveStep witnessDigest (Except.error "disk full")).reportedSaved = true ∧
     (baselineSaveStep witnessDigest (Except.error "disk full")).skippedIncrement = 0 ∧
     (∀ e, (baselineSaveStep witnessDigest (Except.error e)).reportedSaved = true ∧
       (baselineSaveStep witnessDigest (Except.error e)).skippedIncrement = 0)) :=
  ⟨by decide,
   c10_save_baseline_swallows_errors witnessDigest (Except.error "disk full") (by decide)⟩

end DqlBench
